import Mathlib

/-!
Verification of the GradeGraph subject/column inference and aggregation
engine, shallowly embedded from `src/app.py` and `src/services/subjects.py`.

Tables are modelled as a list of column headers together with rows of
labelled cells.  Numeric cell values are rationals; a cell is either a
number, blank (pandas NaN / missing), or non-numeric text (a value on which
Python `float()` raises).  All functions below are direct translations of
the Python source, except where a doc comment says `Modelled from the
spec:` (code imported by `app.py` but absent from the sources).
-/

/-- A spreadsheet cell: a numeric value, a blank (NaN/missing), or
non-numeric text on which `float()` raises. -/
inductive Cell where
  | num (q : ℚ)
  | blank
  | text (s : String)
deriving DecidableEq

/-- A row is an association list from column header to cell, mirroring a
pandas row `Series`. -/
def Row := List (String × Cell)

instance : DecidableEq Row := by
  unfold Row
  infer_instance

/-- `row.get(c, nan)`: first cell labelled `c`, blank when absent. -/
def rowGet (r : Row) (c : String) : Cell :=
  match r.find? (fun p => p.1 = c) with
  | some p => p.2
  | none => Cell.blank

/-- The in-memory table: ordered column headers and ordered rows. -/
structure DataFrame where
  columns : List String
  rows : List Row
deriving DecidableEq

/- ### String helpers (embedding Python's str operations) -/

/-- Python `str.upper()`, on the char list of the string. -/
def upperChars (s : List Char) : List Char := s.map Char.toUpper

/-- Whether `pat` occurs contiguously inside `s`. -/
def listInfixOf (pat : List Char) : List Char → Bool
  | [] => pat.isEmpty
  | c :: rest => pat.isPrefixOf (c :: rest) || listInfixOf pat rest

/-- Python `pat in s` substring containment, on the char list of `s`. -/
def containsStr (s : List Char) (pat : String) : Bool :=
  listInfixOf pat.toList s

/-- Everything before the first occurrence of `pat` in `s`
(Python `s.split(pat)[0]`; the whole string when `pat` is absent). -/
def splitBefore (pat : List Char) : List Char → List Char
  | [] => []
  | c :: rest =>
      if pat.isPrefixOf (c :: rest) then []
      else c :: splitBefore pat rest

/-- Python `str.strip()`: remove leading and trailing whitespace. -/
def stripChars (s : List Char) : List Char :=
  ((s.dropWhile Char.isWhitespace).reverse.dropWhile Char.isWhitespace).reverse

/-- One step of Python `str.title()`: the boolean records whether the
previous character was cased (a letter). -/
def titleAux : Bool → List Char → List Char
  | _, [] => []
  | prevCased, c :: rest =>
      let c' := if c.isAlpha then (if prevCased then c.toLower else c.toUpper) else c
      c' :: titleAux c.isAlpha rest

/-- Python `str.title()`. -/
def titleStr (s : List Char) : List Char := titleAux false s

/-- Python `str.replace("_", " ")`. -/
def underscoreToSpace (s : List Char) : List Char :=
  s.map (fun c => if c = '_' then ' ' else c)

/-- A regex word character (`\w`): letter, digit or underscore. -/
def isWordChar (c : Char) : Bool := c.isAlphanum || c = '_'

/-- Whether the position just before this suffix is a word boundary. -/
def boundaryOk : List Char → Bool
  | [] => true
  | c :: _ => !(isWordChar c)

/-- Scan for `\bPR\b`; the boolean records whether the previous character
was a word character. -/
def hasStandalonePRFrom : Bool → List Char → Bool
  | _, [] => false
  | prevWord, c :: rest =>
      (c = 'P' && !prevWord &&
        (match rest with
         | c2 :: rest2 => c2 = 'R' && boundaryOk rest2
         | [] => false))
      || hasStandalonePRFrom (isWordChar c) rest

/-- Python `re.search(r'\bPR\b', s) is not None`. -/
def hasStandalonePR (s : List Char) : Bool := hasStandalonePRFrom false s

/-- Lexicographic order on char lists by code point, as Python compares
strings. -/
def lexLe : List Char → List Char → Bool
  | [], _ => true
  | _ :: _, [] => false
  | a :: as, b :: bs =>
      if a < b then true
      else if b < a then false
      else lexLe as bs

/-- Python's `<=` on strings. -/
def strLe (a b : String) : Prop := lexLe a.toList b.toList = true

instance : DecidableRel strLe := fun a b => by
  unfold strLe
  infer_instance

/- ### Column Classifier (`src/services/subjects.py`, `src/app.py`) -/

/-- `exclude_cols` of `get_subject_list` (`src/services/subjects.py`). -/
def exclude_cols : List String :=
  ["SR.No", "Roll No", "Name", "Academic_Performance_%",
   "Previous_Performance_Analysis", "Practical_%", "Coding_Expertise",
   "Performance_Analysis", "Category"]

/-- The assessment markers in the order the source iterates them. -/
def codeMarkers : List String := ["ISE", "MSE", "ESE", "PRACTICAL", "TW", "PR"]

/-- First marker of `order` contained in the uppercased header `u`
(the loop with `break` in `get_subject_list`). -/
def findMarker (u : List Char) : List String → Option String
  | [] => none
  | m :: ms => if containsStr u m then some m else findMarker u ms

/-- The inner body of `get_subject_list` for one column: uppercase, find
the first marker, take the trimmed prefix before it; empty prefix (or no
marker) yields no subject; otherwise underscores become spaces and the
result is title-cased. -/
def classifyCol (col : String) : Option String :=
  let u := upperChars col.toList
  match findMarker u codeMarkers with
  | none => none
  | some m =>
      let sub := stripChars (splitBefore m.toList u)
      if sub = [] then none
      else some (String.mk (titleStr (underscoreToSpace sub)))

/-- `get_subject_list` (`src/services/subjects.py`): drop the excluded
metadata columns, classify the rest, collect the subjects into a set and
return them lexicographically sorted. -/
def get_subject_list (df : DataFrame) : List String :=
  List.insertionSort strLe
    (((df.columns.filter (fun c => !(exclude_cols.contains c))).filterMap
        classifyCol).dedup)

/-- `_is_practical_col` (`src/app.py`): false for an empty header; false
when the uppercased header contains "TW" but not "PR"; otherwise true iff
it contains "PRACTICAL" or matches `\bPR\b`. -/
def _is_practical_col (col_name : String) : Bool :=
  if col_name = "" then false
  else
    let u := upperChars col_name.toList
    if containsStr u "TW" && !(containsStr u "PR") then false
    else containsStr u "PRACTICAL" || hasStandalonePR u

/-- `_get_max_marks_for_subject` (`src/app.py`): substring lookup on the
uppercased exam type; `None` or an empty exam type (falsy) gives 100. -/
def _get_max_marks_for_subject (subject_name : String)
    (exam_type : Option String) : ℚ :=
  match exam_type with
  | some et =>
      if et = "" then 100
      else
        let u := upperChars et.toList
        if containsStr u "ESE" then 60
        else if containsStr u "ISE" || containsStr u "MSE" then 25
        else if containsStr u "PRACTICAL" || containsStr u "PR" then 25
        else if containsStr u "TW" then 50
        else 100
  | none => 100

/- ### Aggregation Engine (`src/app.py`, `src/services/subjects.py`) -/

/-- Value of the digit characters `ds` read as a decimal numeral. -/
def digitsVal (ds : List Char) : Nat :=
  ds.foldl (fun acc c => acc * 10 + (c.toNat - '0'.toNat)) 0

/-- The maximal run of digits at the end of `s`, as a number. -/
def trailingNumeral (s : List Char) : Option Nat :=
  let ds := (s.reverse.takeWhile Char.isDigit).reverse
  if ds = [] then none else some (digitsVal ds)

/-- Modelled from the spec: `extract_max_marks_from_header` is imported by
`app.py` from the services package but its definition is not among the
sources.  Per §4.1 it infers a column's maximum attainable mark: the
canonical lookup value when the uppercased header carries a recognized
assessment marker, else a maximum embedded in the header text as a
trailing numeral, else the conservative placeholder 100. -/
def extract_max_marks_from_header (header : String) : ℚ :=
  let u := upperChars header.toList
  if containsStr u "ESE" then 60
  else if containsStr u "ISE" || containsStr u "MSE" then 25
  else if containsStr u "PRACTICAL" || containsStr u "PR" then 25
  else if containsStr u "TW" then 50
  else
    match trailingNumeral header.toList with
    | some n => (n : ℚ)
    | none => 100

/-- One iteration of the loop of `_row_percentage` (`src/app.py`): a cell
that coerces to a number adds its value to the obtained total and the
column's inferred maximum to the max total; a blank (NaN) or non-numeric
cell is skipped entirely. -/
def rpStep (row : Row) (acc : ℚ × ℚ) (c : String) : ℚ × ℚ :=
  match rowGet row c with
  | Cell.num v => (acc.1 + v, acc.2 + extract_max_marks_from_header c)
  | _ => acc

/-- The `(obtained_total, max_total)` pair accumulated by
`_row_percentage`. -/
def rpTotals (row : Row) (cols : List String) : ℚ × ℚ :=
  cols.foldl (rpStep row) (0, 0)

/-- `_row_percentage` (`src/app.py`): obtained over max times 100, or the
no-data sentinel (`np.nan`, modelled as `none`) when the max total is not
positive. -/
def _row_percentage (row : Row) (cols : List String) : Option ℚ :=
  let t := rpTotals row cols
  if t.2 > 0 then some (t.1 / t.2 * 100) else none

/-- Substring containment with a char-list pattern. -/
def containsChars (s pat : List Char) : Bool := listInfixOf pat s

/-- The column filter of `get_subject_marks` (`src/services/subjects.py`):
headers whose uppercase contains the uppercased subject name and "MSE" or
"ESE". -/
def subjectMatchCols (df : DataFrame) (subject_name : String) : List String :=
  df.columns.filter (fun col =>
    let u := upperChars col.toList
    containsChars u (upperChars subject_name.toList) &&
      (containsStr u "MSE" || containsStr u "ESE"))

/-- `float(row[col]) if pd.notna(row[col]) else 0`, with a coercion
failure skipping the cell (zero contribution). -/
def cellNumOrZero : Cell → ℚ
  | Cell.num q => q
  | Cell.blank => 0
  | Cell.text _ => 0

/-- Per-row total over the given columns in `get_subject_marks`. -/
def rowTotal (cols : List String) (r : Row) : ℚ :=
  (cols.map (fun c => cellNumOrZero (rowGet r c))).sum

/-- `get_subject_marks` (`src/services/subjects.py`): `None` when no
column matches, else one MSE+ESE total per student row, in row order. -/
def get_subject_marks (df : DataFrame) (subject_name : String) :
    Option (List ℚ) :=
  let cols := subjectMatchCols df subject_name
  if cols = [] then none
  else some (df.rows.map (rowTotal cols))

/-- `np.mean` on the rationals of a list. -/
def npMean (l : List ℚ) : ℚ := l.sum / l.length

/-- `np.max` on a nonempty list (0 on the empty list, where numpy
errors). -/
def npMax : List ℚ → ℚ
  | [] => 0
  | x :: xs => xs.foldl max x

/-- `np.min` on a nonempty list (0 on the empty list, where numpy
errors). -/
def npMin : List ℚ → ℚ
  | [] => 0
  | x :: xs => xs.foldl min x

/-- The population variance, the square of `np.std` (numpy's default
`ddof=0`). -/
def npVarPop (l : List ℚ) : ℚ :=
  ((l.map (fun x => (x - npMean l) ^ 2)).sum) / l.length

/-- The summary dict of `get_subject_marks_summary`.  `np.std` returns an
irrational square root, so the summary carries the population variance
`var_marks`; the code's `std_marks` is `Real.sqrt var_marks`. -/
structure MarksSummary where
  total_marks : List ℚ
  average_marks : ℚ
  max_marks : ℚ
  min_marks : ℚ
  var_marks : ℚ
deriving DecidableEq

/-- `get_subject_marks_summary` (`src/services/subjects.py`): `None` when
`get_subject_marks` is `None`, else its population statistics. -/
def get_subject_marks_summary (df : DataFrame) (subject_name : String) :
    Option MarksSummary :=
  match get_subject_marks df subject_name with
  | none => none
  | some md => some ⟨md, npMean md, npMax md, npMin md, npVarPop md⟩

/- ### Definitions taken from the spec's words, for comparison -/

/-- The classifier as §4.1 words it, parametrised by the marker precedence
order: uppercase the header, take the first marker of `order` contained in
it, split there, and the trimmed non-empty text before the marker
(underscores to spaces, title-cased) is the subject. -/
def specClassifyWithOrder (order : List String) (col : String) :
    Option String :=
  let u := upperChars col.toList
  match order.find? (fun m => containsStr u m) with
  | none => none
  | some m =>
      let candidate := stripChars (splitBefore m.toList u)
      if candidate = [] then none
      else some (String.mk (titleStr (underscoreToSpace candidate)))

/-- The marker precedence order claimed by the spec: ESE, ISE, MSE,
PRACTICAL, TW, PR. -/
def specMarkers : List String := ["ESE", "ISE", "MSE", "PRACTICAL", "TW", "PR"]

/-- The subject list computed with the spec's claimed marker order. -/
def specSubjectList (df : DataFrame) : List String :=
  List.insertionSort strLe
    (((df.columns.filter (fun c => !(exclude_cols.contains c))).filterMap
        (specClassifyWithOrder specMarkers)).dedup)

/-- `row_percentage` as the claim words it: obtained numeric values (a
missing or non-numeric cell contributing zero to the numerator) over the
sum of EVERY listed column's inferred maximum, times 100. -/
def spec_row_percentage (row : Row) (cols : List String) : Option ℚ :=
  let obtained := (cols.map (fun c => cellNumOrZero (rowGet row c))).sum
  let maxSum := (cols.map extract_max_marks_from_header).sum
  if maxSum > 0 then some (obtained / maxSum * 100) else none

/-- The predicate deciding whether a row's cell in a column is present
and numeric. -/
def isNumCol (row : Row) (c : String) : Bool :=
  match rowGet row c with
  | Cell.num _ => true
  | _ => false

/-- `row_percentage` as amended: only columns whose cell in this row is
present and numeric contribute, each adding its value to the numerator
and its inferred maximum to the denominator. -/
def amended_row_percentage (row : Row) (cols : List String) : Option ℚ :=
  let present := cols.filter (isNumCol row)
  let obtained := (present.map (fun c => cellNumOrZero (rowGet row c))).sum
  let maxSum := (present.map extract_max_marks_from_header).sum
  if maxSum > 0 then some (obtained / maxSum * 100) else none

/- ### Concrete tables used by the claims -/

/-- Row 1 of the spec's §8 scenario. -/
def scenarioRow1 : Row :=
  [("SR.No", Cell.num 1), ("Name", Cell.text "A"),
   ("MATHS MSE", Cell.num 20), ("MATHS ESE", Cell.num 45),
   ("DBMS PRACTICAL", Cell.num 20)]

/-- The subject columns of the §8 scenario. -/
def scenarioCols : List String := ["MATHS MSE", "MATHS ESE", "DBMS PRACTICAL"]

/-- A row with a mark for the MSE column only. -/
def rowMissingESE : Row := [("MATHS MSE", Cell.num 20)]

/-- Three students whose MSE+ESE totals in Phy are 70, 40 and 85. -/
def dfPhy : DataFrame :=
  ⟨["Name", "PHY MSE", "PHY ESE"],
   [[("Name", Cell.text "A"), ("PHY MSE", Cell.num 20), ("PHY ESE", Cell.num 50)],
    [("Name", Cell.text "B"), ("PHY MSE", Cell.num 15), ("PHY ESE", Cell.num 25)],
    [("Name", Cell.text "C"), ("PHY MSE", Cell.num 25), ("PHY ESE", Cell.num 60)]]⟩

/-- One student with one MSE and one ESE column for Maths. -/
def dfMaths : DataFrame :=
  ⟨["Name", "MATHS MSE", "MATHS ESE"],
   [[("Name", Cell.text "S"), ("MATHS MSE", Cell.num 20), ("MATHS ESE", Cell.num 50)]]⟩

/-- A table with no MSE/ESE column for any subject. -/
def dfNoWritten : DataFrame :=
  ⟨["Name", "OS TW"], [[("Name", Cell.text "S"), ("OS TW", Cell.num 10)]]⟩

/-- Two tables whose columns are permutations of each other. -/
def dfPermA : DataFrame := ⟨["OS ESE", "MATHS MSE"], []⟩

/-- `dfPermA` with the columns swapped. -/
def dfPermB : DataFrame := ⟨["MATHS MSE", "OS ESE"], []⟩

/-- A one-column table used when prepending excluded columns. -/
def dfOneCol : DataFrame := ⟨["MATHS MSE"], []⟩

/- ### Helper lemmas -/

theorem listInfixOf_iff {p s : List Char} : listInfixOf p s = true ↔ p <:+: s := by
  induction s with
  | nil =>
      simp [listInfixOf, List.isEmpty_iff]
  | cons c cs ih =>
      simp [listInfixOf, List.infix_cons_iff, List.isPrefixOf_iff_prefix, ih]

theorem containsStr_PR_of_PRACTICAL {u : List Char}
    (h : containsStr u "PRACTICAL" = true) : containsStr u "PR" = true := by
  rw [containsStr, listInfixOf_iff] at h ⊢
  exact List.IsInfix.trans (listInfixOf_iff.mp (by decide)) h

theorem standalonePR_infix {b : Bool} {u : List Char}
    (h : hasStandalonePRFrom b u = true) : ['P', 'R'] <:+: u := by
  induction u generalizing b with
  | nil => simp [hasStandalonePRFrom] at h
  | cons c rest ih =>
      rw [hasStandalonePRFrom.eq_def, Bool.or_eq_true] at h
      rcases h with h | h
      · rcases rest with _ | ⟨c2, rest2⟩
        · simp at h
        · simp only [Bool.and_eq_true, decide_eq_true_eq] at h
          obtain ⟨⟨hc, -⟩, hc2, -⟩ := h
          subst hc
          subst hc2
          exact ⟨[], rest2, rfl⟩
      · exact List.infix_cons_iff.mpr (Or.inr (ih h))

theorem containsStr_PR_of_standalone {u : List Char}
    (h : hasStandalonePR u = true) : containsStr u "PR" = true := by
  rw [containsStr, listInfixOf_iff]
  exact standalonePR_infix h

theorem char_eq_of_not_lt {a b : Char} (h1 : ¬a < b) (h2 : ¬b < a) : a = b :=
  le_antisymm (not_lt.mp h2) (not_lt.mp h1)

theorem lexLe_total : ∀ x y : List Char, lexLe x y = true ∨ lexLe y x = true
  | [], _ => Or.inl rfl
  | _ :: _, [] => Or.inr rfl
  | a :: as, b :: bs => by
      rcases lt_trichotomy a b with hab | hab | hab
      · left
        simp [lexLe, hab]
      · subst hab
        rcases lexLe_total as bs with h | h
        · left
          simp [lexLe, lt_irrefl, h]
        · right
          simp [lexLe, lt_irrefl, h]
      · right
        simp [lexLe, hab]

theorem lexLe_trans : ∀ {x y z : List Char},
    lexLe x y = true → lexLe y z = true → lexLe x z = true
  | [], _, _, _, _ => rfl
  | _ :: _, [], _, h1, _ => by simp [lexLe] at h1
  | _ :: _, _ :: _, [], _, h2 => by simp [lexLe] at h2
  | a :: as, b :: bs, c :: cs, h1, h2 => by
      by_cases hab : a < b
      · by_cases hbc : b < c
        · simp [lexLe, lt_trans hab hbc]
        · by_cases hcb : c < b
          · simp [lexLe, hbc, hcb] at h2
          · have : b = c := char_eq_of_not_lt hbc hcb
            subst this
            simp [lexLe, hab]
      · by_cases hba : b < a
        · simp [lexLe, hab, hba] at h1
        · have : a = b := char_eq_of_not_lt hab hba
          subst this
          simp only [lexLe, if_neg (lt_irrefl a)] at h1
          by_cases hac : a < c
          · simp [lexLe, hac]
          · by_cases hca : c < a
            · simp [lexLe, hac, hca] at h2
            · have : a = c := char_eq_of_not_lt hac hca
              subst this
              simp only [lexLe, if_neg (lt_irrefl a)] at h2 ⊢
              exact lexLe_trans h1 h2

theorem lexLe_antisymm : ∀ {x y : List Char},
    lexLe x y = true → lexLe y x = true → x = y
  | [], [], _, _ => rfl
  | [], _ :: _, _, h2 => by simp [lexLe] at h2
  | _ :: _, [], h1, _ => by simp [lexLe] at h1
  | a :: as, b :: bs, h1, h2 => by
      by_cases hab : a < b
      · simp [lexLe, hab, lt_asymm hab] at h2
      · by_cases hba : b < a
        · simp [lexLe, hab, hba] at h1
        · have hEq : a = b := char_eq_of_not_lt hab hba
          subst hEq
          simp only [lexLe, if_neg (lt_irrefl a)] at h1 h2
          rw [lexLe_antisymm h1 h2]

instance : IsTotal String strLe :=
  ⟨fun a b => lexLe_total a.toList b.toList⟩

instance : IsTrans String strLe :=
  ⟨fun _ _ _ h1 h2 => lexLe_trans h1 h2⟩

instance : IsAntisymm String strLe :=
  ⟨fun a b h1 h2 => by
    cases a
    cases b
    exact congrArg String.mk (lexLe_antisymm h1 h2)⟩

theorem findMarker_eq_find? (u : List Char) :
    ∀ order : List String,
      findMarker u order = order.find? (fun m => containsStr u m)
  | [] => rfl
  | m :: ms => by
      rw [findMarker, List.find?]
      by_cases h : containsStr u m
      · simp [h]
      · simp only [Bool.not_eq_true] at h
        simp [h, findMarker_eq_find? u ms]

theorem rpTotals_foldl (row : Row) :
    ∀ (cols : List String) (a b : ℚ),
      List.foldl (rpStep row) (a, b) cols =
        (a + (((cols.filter (isNumCol row)).map
                (fun c => cellNumOrZero (rowGet row c))).sum),
         b + (((cols.filter (isNumCol row)).map
                extract_max_marks_from_header).sum))
  | [], a, b => by simp
  | c :: cs, a, b => by
      rw [List.foldl_cons, rpStep]
      rcases hc : rowGet row c with v | _ | s
      · have hn : isNumCol row c = true := by simp [isNumCol, hc]
        rw [rpTotals_foldl row cs (a + v) (b + extract_max_marks_from_header c)]
        simp [List.filter_cons, hn, hc, cellNumOrZero, add_assoc]
      · have hn : isNumCol row c = false := by simp [isNumCol, hc]
        rw [rpTotals_foldl row cs a b]
        simp [List.filter_cons, hn]
      · have hn : isNumCol row c = false := by simp [isNumCol, hc]
        rw [rpTotals_foldl row cs a b]
        simp [List.filter_cons, hn]

/- ### The claims -/

/-- C1: for every header string H, `is_practical_column(H)` returns true
if H contains "PRACTICAL" or contains "PR" as a standalone word-boundary
token, and returns false whenever H contains "TW" without containing
"PR"; in particular `is_practical_column("DBMS TW") = false`,
`is_practical_column("DBMS PRACTICAL") = true`,
`is_practical_column("DBMS PR") = true`. -/
theorem is_practical_col_C1 (H : String) :
    ((containsStr (upperChars H.toList) "PRACTICAL" = true ∨
        hasStandalonePR (upperChars H.toList) = true) →
      _is_practical_col H = true) ∧
    ((containsStr (upperChars H.toList) "TW" = true ∧
        containsStr (upperChars H.toList) "PR" = false) →
      _is_practical_col H = false) ∧
    _is_practical_col "DBMS TW" = false ∧
    _is_practical_col "DBMS PRACTICAL" = true ∧
    _is_practical_col "DBMS PR" = true := by
  refine ⟨?_, ?_, by decide, by decide, by decide⟩
  · intro h
    have hPR : containsStr (upperChars H.toList) "PR" = true := by
      rcases h with h | h
      · exact containsStr_PR_of_PRACTICAL h
      · exact containsStr_PR_of_standalone h
    have hne : H ≠ "" := by
      intro hH
      subst hH
      exact absurd hPR (by decide)
    have hPRd : containsStr (upperChars H.data) "PR" = true := hPR
    have hd : containsStr (upperChars H.data) "PRACTICAL" = true ∨
        hasStandalonePR (upperChars H.data) = true := h
    rcases hd with h' | h' <;> simp [_is_practical_col, hne, hPRd, h']
  · rintro ⟨hTW, hPR⟩
    have hTWd : containsStr (upperChars H.data) "TW" = true := hTW
    have hPRd : containsStr (upperChars H.data) "PR" = false := hPR
    by_cases hne : H = ""
    · simp [_is_practical_col, hne]
    · simp [_is_practical_col, hne, hTWd, hPRd]

theorem is_practical_col_C1_witness :
    _is_practical_col "DBMS PRACTICAL" = true :=
  (is_practical_col_C1 "DBMS PRACTICAL").1 (Or.inl (by decide))

/-- C2, counterexample: the claim says the markers are tested in the
order ESE, ISE, MSE, PRACTICAL, TW, PR, so that a header containing both
"ISE" and "ESE" splits on "ESE"; on the header "AB ESE ISE" that order
yields the subject "Ab", but the code (which tests ISE first) yields
"Ab Ese". -/
theorem classifier_order_C2_counterexample :
    specClassifyWithOrder specMarkers "AB ESE ISE" = some "Ab" ∧
    classifyCol "AB ESE ISE" = some "Ab Ese" ∧
    specSubjectList ⟨["AB ESE ISE"], []⟩ = ["Ab"] ∧
    get_subject_list ⟨["AB ESE ISE"], []⟩ = ["Ab Ese"] ∧
    (some "Ab" : Option String) ≠ some "Ab Ese" :=
  ⟨by decide, by decide, by decide, by decide, by decide⟩

/-- C2, amended: the classifier uppercases the header and tests the
markers in the order ISE, MSE, ESE, PRACTICAL, TW, PR; the first marker
found splits the header and the trimmed, non-empty text before it is the
subject candidate (so a header containing both "ISE" and "ESE" is split
on "ISE" first). -/
theorem classifier_order_C2_amended :
    (∀ col : String,
        classifyCol col = specClassifyWithOrder codeMarkers col) ∧
    classifyCol "AB ESE ISE" = some "Ab Ese" := by
  constructor
  · intro col
    rw [classifyCol, specClassifyWithOrder, findMarker_eq_find?]
  · decide

/-- C4: `max_marks_for` is a pure lookup with ESE 60, MSE 25, ISE 25,
TW 50, PRACTICAL 25, any unrecognized type 100, and 100 when no
assessment type is supplied. -/
theorem max_marks_lookup_C4 (subject_name : String) :
    _get_max_marks_for_subject subject_name (some "ESE") = 60 ∧
    _get_max_marks_for_subject subject_name (some "MSE") = 25 ∧
    _get_max_marks_for_subject subject_name (some "ISE") = 25 ∧
    _get_max_marks_for_subject subject_name (some "TW") = 50 ∧
    _get_max_marks_for_subject subject_name (some "PRACTICAL") = 25 ∧
    _get_max_marks_for_subject subject_name (some "UNKNOWN") = 100 ∧
    _get_max_marks_for_subject subject_name none = 100 ∧
    (∀ exam_type : String,
        containsStr (upperChars exam_type.toList) "ESE" = false →
        containsStr (upperChars exam_type.toList) "ISE" = false →
        containsStr (upperChars exam_type.toList) "MSE" = false →
        containsStr (upperChars exam_type.toList) "PRACTICAL" = false →
        containsStr (upperChars exam_type.toList) "PR" = false →
        containsStr (upperChars exam_type.toList) "TW" = false →
        _get_max_marks_for_subject subject_name (some exam_type) = 100) := by
  refine ⟨rfl, rfl, rfl, rfl, rfl, rfl, rfl, ?_⟩
  intro et h1 h2 h3 h4 h5 h6
  have h1d : containsStr (upperChars et.data) "ESE" = false := h1
  have h2d : containsStr (upperChars et.data) "ISE" = false := h2
  have h3d : containsStr (upperChars et.data) "MSE" = false := h3
  have h4d : containsStr (upperChars et.data) "PRACTICAL" = false := h4
  have h5d : containsStr (upperChars et.data) "PR" = false := h5
  have h6d : containsStr (upperChars et.data) "TW" = false := h6
  by_cases he : et = ""
  · simp [_get_max_marks_for_subject, he]
  · simp [_get_max_marks_for_subject, he, h1, h2, h3, h4, h5, h6,
      h1d, h2d, h3d, h4d, h5d, h6d]

theorem max_marks_lookup_C4_witness :
    _get_max_marks_for_subject "X" (some "FOO") = 100 :=
  (max_marks_lookup_C4 "X").2.2.2.2.2.2.2 "FOO" (by decide) (by decide)
    (by decide) (by decide) (by decide) (by decide)

/-- C8: whenever the summed inferred maximum accumulated by
`row_percentage` is zero, the result is the no-data sentinel, not 0 and
not an error. -/
theorem row_percentage_zero_max_C8 (row : Row) (cols : List String)
    (h : (rpTotals row cols).2 = 0) :
    _row_percentage row cols = none ∧ _row_percentage row cols ≠ some 0 := by
  have hnone : _row_percentage row cols = none := by
    simp [_row_percentage, h]
  exact ⟨hnone, by simp [hnone]⟩

theorem row_percentage_zero_max_C8_witness :
    (rpTotals [] []).2 = 0 ∧
    (_row_percentage [] [] = none ∧ _row_percentage [] [] ≠ some 0) :=
  ⟨rfl, row_percentage_zero_max_C8 [] [] rfl⟩

/-- C3, counterexample: on a row whose "MATHS ESE" cell is missing, the
code skips that column's maximum entirely (20/25 = 80%), while the claim
— every listed column's maximum in the denominator — predicts
20/85 ≈ 23.5%. -/
theorem row_percentage_C3_counterexample :
    _row_percentage rowMissingESE ["MATHS MSE", "MATHS ESE"] = some 80 ∧
    spec_row_percentage rowMissingESE ["MATHS MSE", "MATHS ESE"] =
      some (400 / 17) ∧
    (some (80 : ℚ) : Option ℚ) ≠ some (400 / 17) := by
  have h1 : rowGet rowMissingESE "MATHS MSE" = Cell.num 20 := by decide
  have h2 : rowGet rowMissingESE "MATHS ESE" = Cell.blank := by decide
  have e1 : extract_max_marks_from_header "MATHS MSE" = 25 := by decide
  have e2 : extract_max_marks_from_header "MATHS ESE" = 60 := by decide
  refine ⟨?_, ?_, ?_⟩
  · simp only [_row_percentage, rpTotals, List.foldl, rpStep, h1, h2, e1]
    norm_num
  · simp only [spec_row_percentage, List.map_cons, List.map_nil, h1, h2, e1,
      e2, cellNumOrZero, List.sum_cons, List.sum_nil]
    norm_num
  · simp only [ne_eq, Option.some.injEq]
    norm_num

/-- C3, amended: `row_percentage` sums obtained values and inferred
maxima over only those listed columns whose cell in the row is present
and numeric, returning obtained over max times 100 (sentinel when the max
sum is not positive); on the §8 scenario row (all cells present) it gives
(20+45+20)/(25+60+25)·100 = 850/11 ≈ 77.27. -/
theorem row_percentage_C3_amended :
    (∀ (row : Row) (cols : List String),
        _row_percentage row cols = amended_row_percentage row cols) ∧
    _row_percentage scenarioRow1 scenarioCols = some (850 / 11) := by
  constructor
  · intro row cols
    unfold _row_percentage amended_row_percentage
    rw [rpTotals, rpTotals_foldl row cols 0 0]
    simp only [zero_add]
  · have h1 : rowGet scenarioRow1 "MATHS MSE" = Cell.num 20 := by decide
    have h2 : rowGet scenarioRow1 "MATHS ESE" = Cell.num 45 := by decide
    have h3 : rowGet scenarioRow1 "DBMS PRACTICAL" = Cell.num 20 := by decide
    have e1 : extract_max_marks_from_header "MATHS MSE" = 25 := by decide
    have e2 : extract_max_marks_from_header "MATHS ESE" = 60 := by decide
    have e3 : extract_max_marks_from_header "DBMS PRACTICAL" = 25 := by decide
    simp only [scenarioCols, _row_percentage, rpTotals, List.foldl, rpStep,
      h1, h2, h3, e1, e2, e3]
    norm_num

/-- C5: `subject_marks` considers only columns whose uppercased header
contains the subject name and "MSE" or "ESE"; when no column of the table
satisfies that condition it returns the no-data sentinel, never a
zero-filled list, and `subject_marks_summary` propagates the
sentinel. -/
theorem subject_marks_no_data_C5 (df : DataFrame) (subject_name : String)
    (h : ∀ col ∈ df.columns,
        ¬(containsChars (upperChars col.toList)
              (upperChars subject_name.toList) = true ∧
          (containsStr (upperChars col.toList) "MSE" = true ∨
            containsStr (upperChars col.toList) "ESE" = true))) :
    get_subject_marks df subject_name = none ∧
    get_subject_marks df subject_name ≠ some (df.rows.map (fun _ => 0)) ∧
    get_subject_marks_summary df subject_name = none := by
  have hcols : subjectMatchCols df subject_name = [] := by
    rw [subjectMatchCols, List.filter_eq_nil_iff]
    intro col hcol
    have hcol' := h col hcol
    simp only [Bool.and_eq_true, Bool.or_eq_true]
    exact hcol'
  have hnone : get_subject_marks df subject_name = none := by
    simp [get_subject_marks, hcols]
  exact ⟨hnone, by simp [hnone], by simp [get_subject_marks_summary, hnone]⟩

theorem subject_marks_no_data_C5_witness :
    get_subject_marks dfNoWritten "Maths" = none ∧
    get_subject_marks dfNoWritten "Maths" ≠
      some (dfNoWritten.rows.map (fun _ => 0)) ∧
    get_subject_marks_summary dfNoWritten "Maths" = none :=
  subject_marks_no_data_C5 dfNoWritten "Maths" (by decide)

/-- C6: with at least one matching MSE/ESE column, `subject_marks`
returns one total per student row in table row order — the sum of the
row's values over the filtered columns, missing or non-numeric entries
contributing zero — and a student scoring 20 on the MSE column and 50 on
the ESE column gets the raw total 70, not a percentage. -/
theorem subject_marks_totals_C6 (df : DataFrame) (subject_name : String)
    (h : subjectMatchCols df subject_name ≠ []) :
    get_subject_marks df subject_name =
      some (df.rows.map (rowTotal (subjectMatchCols df subject_name))) ∧
    (∀ l, get_subject_marks df subject_name = some l →
        l.length = df.rows.length) ∧
    get_subject_marks dfMaths "Maths" = some [70] := by
  have hsome : get_subject_marks df subject_name =
      some (df.rows.map (rowTotal (subjectMatchCols df subject_name))) := by
    simp [get_subject_marks, h]
  refine ⟨hsome, ?_, ?_⟩
  · intro l hl
    rw [hsome] at hl
    simp only [Option.some.injEq] at hl
    subst hl
    exact List.length_map _ _
  · have hcols : subjectMatchCols dfMaths "Maths" =
        ["MATHS MSE", "MATHS ESE"] := by decide
    have c1 : rowGet [("Name", Cell.text "S"), ("MATHS MSE", Cell.num 20),
        ("MATHS ESE", Cell.num 50)] "MATHS MSE" = Cell.num 20 := by decide
    have c2 : rowGet [("Name", Cell.text "S"), ("MATHS MSE", Cell.num 20),
        ("MATHS ESE", Cell.num 50)] "MATHS ESE" = Cell.num 50 := by decide
    have hrows : dfMaths.rows = [[("Name", Cell.text "S"),
        ("MATHS MSE", Cell.num 20), ("MATHS ESE", Cell.num 50)]] := rfl
    simp only [get_subject_marks, hcols, hrows, List.map_cons, List.map_nil,
      rowTotal, c1, c2, cellNumOrZero, List.sum_cons, List.sum_nil]
    norm_num
    intro hcontr
    simp at hcontr

theorem subject_marks_totals_C6_witness :
    get_subject_marks dfMaths "Maths" =
      some (dfMaths.rows.map (rowTotal (subjectMatchCols dfMaths "Maths"))) ∧
    (∀ l, get_subject_marks dfMaths "Maths" = some l →
        l.length = dfMaths.rows.length) ∧
    get_subject_marks dfMaths "Maths" = some [70] :=
  subject_marks_totals_C6 dfMaths "Maths" (by decide)

theorem dfPhy_marks : get_subject_marks dfPhy "Phy" = some [70, 40, 85] := by
  have hcols : subjectMatchCols dfPhy "Phy" = ["PHY MSE", "PHY ESE"] := by
    decide
  have a1 : rowGet [("Name", Cell.text "A"), ("PHY MSE", Cell.num 20),
      ("PHY ESE", Cell.num 50)] "PHY MSE" = Cell.num 20 := by decide
  have a2 : rowGet [("Name", Cell.text "A"), ("PHY MSE", Cell.num 20),
      ("PHY ESE", Cell.num 50)] "PHY ESE" = Cell.num 50 := by decide
  have b1 : rowGet [("Name", Cell.text "B"), ("PHY MSE", Cell.num 15),
      ("PHY ESE", Cell.num 25)] "PHY MSE" = Cell.num 15 := by decide
  have b2 : rowGet [("Name", Cell.text "B"), ("PHY MSE", Cell.num 15),
      ("PHY ESE", Cell.num 25)] "PHY ESE" = Cell.num 25 := by decide
  have c1 : rowGet [("Name", Cell.text "C"), ("PHY MSE", Cell.num 25),
      ("PHY ESE", Cell.num 60)] "PHY MSE" = Cell.num 25 := by decide
  have c2 : rowGet [("Name", Cell.text "C"), ("PHY MSE", Cell.num 25),
      ("PHY ESE", Cell.num 60)] "PHY ESE" = Cell.num 60 := by decide
  have hrows : dfPhy.rows =
      [[("Name", Cell.text "A"), ("PHY MSE", Cell.num 20), ("PHY ESE", Cell.num 50)],
       [("Name", Cell.text "B"), ("PHY MSE", Cell.num 15), ("PHY ESE", Cell.num 25)],
       [("Name", Cell.text "C"), ("PHY MSE", Cell.num 25), ("PHY ESE", Cell.num 60)]] := rfl
  simp only [get_subject_marks, hcols, hrows, List.map_cons, List.map_nil,
    rowTotal, a1, a2, b1, b2, c1, c2, cellNumOrZero, List.sum_cons,
    List.sum_nil]
  norm_num
  intro hcontr
  simp at hcontr

theorem dfPhy_summary : get_subject_marks_summary dfPhy "Phy" =
    some ⟨[70, 40, 85], 65, 85, 40, 350⟩ := by
  have hmean : npMean [70, 40, 85] = 65 := by
    norm_num [npMean]
  have hmax : npMax [70, 40, 85] = 85 := by
    have m1 : max (70 : ℚ) 40 = 70 := max_eq_left (by norm_num)
    have m2 : max (70 : ℚ) 85 = 85 := max_eq_right (by norm_num)
    simp [npMax, m1, m2]
  have hmin : npMin [70, 40, 85] = 40 := by
    have m1 : min (70 : ℚ) 40 = 40 := min_eq_right (by norm_num)
    have m2 : min (40 : ℚ) 85 = 40 := min_eq_left (by norm_num)
    simp [npMin, m1, m2]
  have hvar : npVarPop [70, 40, 85] = 350 := by
    norm_num [npVarPop, hmean]
  unfold get_subject_marks_summary
  rw [dfPhy_marks]
  simp only [Option.some.injEq, hmean, hmax, hmin, hvar]

/-- C7, counterexample: over the per-student totals [70, 40, 85] the code
yields average 65.0, max 85, min 40 and population variance 350, so the
population standard deviation is √350 ≈ 18.71 — not ≈ 18.3 as the claim
states. -/
theorem subject_marks_summary_C7_counterexample :
    get_subject_marks dfPhy "Phy" = some [70, 40, 85] ∧
    get_subject_marks_summary dfPhy "Phy" =
      some ⟨[70, 40, 85], 65, 85, 40, 350⟩ ∧
    ¬(|Real.sqrt 350 - 183 / 10| ≤ 1 / 20) := by
  refine ⟨dfPhy_marks, dfPhy_summary, ?_⟩
  have hlt : (367 / 20 : ℝ) < Real.sqrt 350 :=
    Real.lt_sqrt_of_sq_lt (by norm_num)
  intro habs
  have h2 := (abs_le.mp habs).2
  linarith

/-- C7, amended: `subject_marks_summary` computes standard population
statistics over `subject_marks`' output: over the totals [70, 40, 85] it
yields average 65.0, max 85, min 40, and population standard deviation
√350 ≈ 18.71 (between 18.70 and 18.71). -/
theorem subject_marks_summary_C7_amended :
    get_subject_marks dfPhy "Phy" = some [70, 40, 85] ∧
    get_subject_marks_summary dfPhy "Phy" =
      some ⟨[70, 40, 85], 65, 85, 40, 350⟩ ∧
    187 / 10 ≤ Real.sqrt 350 ∧ Real.sqrt 350 ≤ 1871 / 100 := by
  refine ⟨dfPhy_marks, dfPhy_summary, ?_, ?_⟩
  · exact Real.le_sqrt_of_sq_le (by norm_num)
  · exact (Real.sqrt_le_left (by norm_num)).mpr (by norm_num)

/-- C9: `subject_list` is deterministic and idempotent, its result is a
duplicate-free sorted sequence, and any permutation of the table's
columns yields the same subject list. -/
theorem subject_list_props_C9 (df df' : DataFrame)
    (h : df.columns.Perm df'.columns) :
    get_subject_list df = get_subject_list df ∧
    List.Sorted strLe (get_subject_list df) ∧
    (get_subject_list df).Nodup ∧
    get_subject_list df = get_subject_list df' := by
  refine ⟨rfl, ?_, ?_, ?_⟩
  · unfold get_subject_list
    exact List.sorted_insertionSort strLe _
  · unfold get_subject_list
    exact ((List.perm_insertionSort strLe _).nodup_iff).mpr
      (List.nodup_dedup _)
  · unfold get_subject_list
    have h1 := h.filter (fun c => !(exclude_cols.contains c))
    have h2 := h1.filterMap classifyCol
    have h3 := h2.dedup
    exact List.eq_of_perm_of_sorted
      (((List.perm_insertionSort strLe _).trans h3).trans
        (List.perm_insertionSort strLe _).symm)
      (List.sorted_insertionSort strLe _)
      (List.sorted_insertionSort strLe _)

theorem subject_list_props_C9_witness :
    get_subject_list dfPermA = get_subject_list dfPermA ∧
    List.Sorted strLe (get_subject_list dfPermA) ∧
    (get_subject_list dfPermA).Nodup ∧
    get_subject_list dfPermA = get_subject_list dfPermB :=
  subject_list_props_C9 dfPermA dfPermB
    (List.Perm.swap "MATHS MSE" "OS ESE" [])

/-- C10: a column whose exact name is in the fixed exclusion list never
contributes a subject — prepending such a column to any table leaves
`subject_list` unchanged — even though some excluded names would
otherwise classify: uppercased "Coding_Expertise" contains "ISE" and the
classifier alone would extract the spurious subject "Coding Expert". -/
theorem excluded_columns_C10 (df : DataFrame) (c : String)
    (h : c ∈ exclude_cols) :
    get_subject_list ⟨c :: df.columns, df.rows⟩ = get_subject_list df ∧
    classifyCol "Coding_Expertise" = some "Coding Expert" := by
  constructor
  · unfold get_subject_list
    simp [List.filter_cons, h]
  · decide

theorem excluded_columns_C10_witness :
    get_subject_list ⟨"Coding_Expertise" :: dfOneCol.columns, dfOneCol.rows⟩ =
      get_subject_list dfOneCol ∧
    classifyCol "Coding_Expertise" = some "Coding Expert" :=
  excluded_columns_C10 dfOneCol "Coding_Expertise" (by decide)
